import Mathlib

/-!
Shallow embedding of the `vm-lang` host program (the repository's single
translation unit): command-line splitting (`Parameters::Parse`), the
`Argc`/`Argv` host bindings, the `JsonStateMap` persistent state store
(hex-encoded JSON-backed key/value map implementing the Io observer
interface `Read`/`Write`/`Exists`), the file-load/save operations, and the
control flow of `main`.

Machine integers are modelled as `Nat`/`Int` with explicit wrapping where a
narrowing cast occurs.  Bytes are `Fin 256`.  Fallible C++ code (throwing
`std::runtime_error`, `std::out_of_range`, or a failing variant cast) is
modelled with `Except`.
-/

abbrev Byte := Fin 256

/-- Modelled from the spec: the hex encoder digit table.  `ToHex` from
`core/byte_array/encoders.hpp` is not under `src/`; the spec describes the
codec as "a pure, invertible byte-to-text transform (two hex characters per
byte, case-insensitive on decode)". -/
def hexDigit (n : Nat) : Char :=
  if n < 10 then Char.ofNat (Char.toNat '0' + n)
  else Char.ofNat (Char.toNat 'a' + (n - 10))

/-- Modelled from the spec: value of one hex character, case-insensitive,
as used by `FromHex` from `core/byte_array/decoders.hpp` (not under
`src/`). -/
def hexVal (c : Char) : Nat :=
  if Char.toNat '0' ≤ c.toNat ∧ c.toNat ≤ Char.toNat '9' then c.toNat - Char.toNat '0'
  else if Char.toNat 'a' ≤ c.toNat ∧ c.toNat ≤ Char.toNat 'f' then
    c.toNat - Char.toNat 'a' + 10
  else if Char.toNat 'A' ≤ c.toNat ∧ c.toNat ≤ Char.toNat 'F' then
    c.toNat - Char.toNat 'A' + 10
  else 0

/-- Modelled from the spec: `ToHex` encodes each byte as two hex
characters, high nibble first. -/
def ToHex : List Byte → List Char
  | [] => []
  | b :: rest => hexDigit (b.val / 16) :: hexDigit (b.val % 16) :: ToHex rest

/-- Modelled from the spec: `FromHex` decodes two hex characters per byte,
case-insensitive. -/
def FromHex : List Char → List Byte
  | c1 :: c2 :: rest =>
    ⟨(hexVal c1 * 16 + hexVal c2) % 256, Nat.mod_lt _ (by norm_num)⟩ :: FromHex rest
  | _ => []

/-- The status codes of `fetch::vm::IoObserverInterface` used by the
program. -/
inductive Status where
  | OK
  | BUFFER_TOO_SMALL
  | ERROR
deriving DecidableEq

/-- Modelled from the spec: the `fetch::variant::Variant` / JSON document
tree (the JSON parser and `Variant` live outside `src/`); the spec treats
it as "a tree-structured value store with object/has-key/index
operations". -/
inductive JValue where
  | object : List (String × JValue) → JValue
  | array : List JValue → JValue
  | str : List Char → JValue
  | num : Int → JValue
  | boolean : Bool → JValue
  | null : JValue

/-- Association-list lookup keyed by strings (the object member lookup of
`Variant` and the script-function lookup of the VM). -/
def lookupStr {α : Type} : List (String × α) → String → Option α
  | [], _ => none
  | kv :: rest, key => if kv.1 = key then some kv.2 else lookupStr rest key

/-- Association-list overwrite-or-insert (the `data_[key] = v` assignment
on a `Variant` object). -/
def setKey {α : Type} : List (String × α) → String → α → List (String × α)
  | [], key, v => [(key, v)]
  | kv :: rest, key, v => if kv.1 = key then (key, v) :: rest else kv :: setKey rest key v

/-- Shape check `root.IsObject()` on a variant. -/
def JValue.IsObject : JValue → Bool
  | .object _ => true
  | _ => false

/-- Variant cast `v.As<ConstByteArray>()`: succeeds only on a
string-valued variant, throws otherwise. -/
def JValue.AsConstByteArray : JValue → Except String (List Char)
  | .str s => Except.ok s
  | _ => Except.error "variant type mismatch"

/-- The state store: `data_` is the member list of the root `Variant`
object (`Variant data_{Variant::Object()}`). -/
structure JsonStateMap where
  data_ : List (String × JValue)

/-- Member check `data_.Has(key)`. -/
def JsonStateMap.Has (m : JsonStateMap) (key : String) : Bool :=
  (lookupStr m.data_ key).isSome

/-- Buffer copy `std::memcpy(dst, src, src.size())`: the source bytes
overwrite the prefix of the destination buffer. -/
def memcpy (dst src : List Byte) : List Byte :=
  src ++ dst.drop src.length

/-- Method `JsonStateMap::Read(key, data, size)`.  `size` is the in/out
capacity/actual-size parameter; the first component is the returned status
together with the value of `size` and of the caller's buffer after the
call (`Except.error` models the throw of a failing variant cast); the
second component is the store's document after the call. -/
def JsonStateMap.Read (m : JsonStateMap) (key : String) (data : List Byte) (size : Nat) :
    Except String (Status × Nat × List Byte) × JsonStateMap :=
  match lookupStr m.data_ key with
  | none => (Except.ok (Status.ERROR, size, data), m)
  | some v =>
    match v.AsConstByteArray with
    | Except.error e => (Except.error e, m)
    | Except.ok hex =>
      let value := FromHex hex
      if value.length ≤ size then
        (Except.ok (Status.OK, value.length, memcpy data value), m)
      else
        (Except.ok (Status.BUFFER_TOO_SMALL, value.length, data), m)

/-- Method `JsonStateMap::Write(key, data, size)`: stores the hex encoding of the
first `size` bytes of the caller's buffer and always returns `OK`. -/
def JsonStateMap.Write (m : JsonStateMap) (key : String) (data : List Byte) (size : Nat) :
    Status × JsonStateMap :=
  (Status.OK, ⟨setKey m.data_ key (JValue.str (ToHex (data.take size)))⟩)

/-- Method `JsonStateMap::Exists(key)`; the second component is the store's
document after the call. -/
def JsonStateMap.Exists (m : JsonStateMap) (key : String) : Status × JsonStateMap :=
  ((if m.Has key then Status.OK else Status.ERROR), m)

/-- Helper `ReadFileContents(path)`: an absent (unopenable) file, modelled as
`none`, and an empty file both yield the empty contents. -/
def ReadFileContents : Option (List Char) → List Char
  | none => []
  | some s => s

/-- Method `JsonStateMap::LoadFromFile(filename)`.  `parse` abstracts the
`JSONDocument` parser (outside `src/`); `file` is the contents of the file
at `filename` (`none` when absent).  A non-object root throws
`std::runtime_error("JSON state file is not correct")`, modelled as
`Except.error`. -/
def JsonStateMap.LoadFromFile (m : JsonStateMap) (parse : List Char → JValue)
    (file : Option (List Char)) : Except String JsonStateMap :=
  let file_contents := ReadFileContents file
  if file_contents.isEmpty then Except.ok m
  else
    match parse file_contents with
    | JValue.object kvs => Except.ok ⟨kvs⟩
    | _ => Except.error "JSON state file is not correct"

/-- Method `JsonStateMap::SaveToFile(filename)`: serializes the root object;
`serialize` abstracts the JSON serializer (outside `src/`).  The result is
the contents written to the file. -/
def JsonStateMap.SaveToFile (serialize : JValue → List Char) (m : JsonStateMap) : List Char :=
  serialize (JValue.object m.data_)

/-- The loop body of `Parameters::Parse`: walks the arguments after
`argv[0]`, switching the current list from the program list to the script
list at the first `"--"` (later `"--"` tokens re-switch, i.e. are
dropped).  Returns (program args, script args), both without `argv[0]`. -/
def parseLoop : List String → Bool → List String × List String
  | [], _ => ([], [])
  | a :: rest, inScript =>
    if a = "--" then parseLoop rest true
    else
      let pr := parseLoop rest inScript
      if inScript then (pr.1, a :: pr.2) else (a :: pr.1, pr.2)

/-- The `Parameters` object: the parsed program argument list and the
copied script argument list. -/
structure Parameters where
  program_args_ : List String
  script_args_ : List String

/-- Method `Parameters::Parse(argc, argv)`: `argv[0]` is pushed onto both
lists before the loop. -/
def Parameters.Parse (argv0 : String) (args : List String) : Parameters :=
  let pr := parseLoop args false
  ⟨argv0 :: pr.1, argv0 :: pr.2⟩

/-- Accessor `Parameters::script()`. -/
def Parameters.script (p : Parameters) : List String :=
  p.script_args_

/-- Narrowing cast `static_cast<int32_t>` of an unsigned size: wrap modulo
2^32 into the signed range. -/
def int32cast (n : Nat) : Int :=
  if n % 2 ^ 32 < 2 ^ 31 then ((n % 2 ^ 32 : Nat) : Int)
  else ((n % 2 ^ 32 : Nat) : Int) - 2 ^ 32

/-- The `Argc` host binding: `static_cast<int32_t>(params.script().size())`. -/
def Argc (p : Parameters) : Int :=
  int32cast p.script.length

/-- The `Argv` host binding: `params.script().at(static_cast<std::size_t>(index))`;
`at` throws `std::out_of_range` on a bad index, and the `int32` index is
converted to `size_t` by wrapping modulo 2^64. -/
def Argv (p : Parameters) (index : Int) : Except String String :=
  match p.script.get? (index % (2 ^ 64 : Int)).toNat with
  | some s => Except.ok s
  | none => Except.error "index out of range"

/-- Modelled from the spec: the `OutputValue` variant exchanged between VM
and host ("a tagged variant capable of representing at least: absence,
boolean, integer, floating-point, string, and aggregate script values");
only the cases the claims need are listed. -/
inductive OutputValue where
  | unit
  | i32 : Int → OutputValue
  | text : String → OutputValue
deriving DecidableEq

/-- Modelled from the spec: the body expressions of compiled entry
functions needed by the scenarios; `systemArgc`/`systemArgv` are calls of
the `System.Argc`/`System.Argv` bindings registered by the host. -/
inductive Expr where
  | systemArgc
  | systemArgv : Expr → Expr
  | intLit : Int → Expr

/-- Modelled from the spec: evaluation of an entry-function body; a host
binding "is called synchronously and its return value fed back into the
script's evaluation". -/
def evalExpr (p : Parameters) : Expr → Except String OutputValue
  | Expr.systemArgc => Except.ok (OutputValue.i32 (Argc p))
  | Expr.systemArgv e =>
    match evalExpr p e with
    | Except.ok (OutputValue.i32 i) => (Argv p i).map OutputValue.text
    | Except.ok _ => Except.error "type error"
    | Except.error e' => Except.error e'
  | Expr.intLit n => Except.ok (OutputValue.i32 n)

/-- Modelled from the spec: a compiled unit is a set of named functions
resolvable by name at execution time. -/
structure Script where
  functions : List (String × Expr)

/-- The execution result `{success, error, console, output}`. -/
structure ExecutionResult where
  success : Bool
  error : String
  console : String
  output : OutputValue
deriving DecidableEq

/-- Modelled from the spec: `vm->Execute(script, name, error, console,
output)` — resolves the named function (absence is a failure with a
descriptive error and no side effects), evaluates its body, and reports
success with the final value as `output`, or failure with the fault
message. -/
def Execute (p : Parameters) (s : Script) (fname : String) : ExecutionResult :=
  match lookupStr s.functions fname with
  | none => ⟨false, "unable to find function " ++ fname, "", OutputValue.unit⟩
  | some body =>
    match evalExpr p body with
    | Except.ok v => ⟨true, "", "", v⟩
    | Except.error e => ⟨false, e, "", OutputValue.unit⟩

/-- Modelled from the spec: the compiled unit of a source equivalent to
`function main(): Int32 return System.Argc(); end`. -/
def argcMainScript : Script :=
  ⟨[("main", Expr.systemArgc)]⟩

/-- The externally determined inputs of one `main` run: whether
`params.program().arg_size() == 2`, the compile diagnostics returned by
`VMFactory::Compile`, whether a `-data` path was given, the contents of
the state file, the JSON parser, and the success flag returned by
`vm->Execute`. -/
structure MainInput where
  argSizeOk : Bool
  compileErrors : List String
  hasDataPath : Bool
  stateFile : Option (List Char)
  parse : List Char → JValue
  execSuccess : Bool

/-- The observable stages of one `main` run. -/
inductive Event where
  | compile
  | loadState
  | execute
  | saveState
deriving DecidableEq

/-- How the process run ends: a normal `return code`, or an abort from an
uncaught exception. -/
inductive ExitOutcome where
  | exit : Nat → ExitOutcome
  | abort : String → ExitOutcome
deriving DecidableEq

/-- The control flow of `main`: usage check, compile (halting on
diagnostics), optional state load (an uncaught throw aborts the run),
execution, optional state save, and `return success ? 0 : 1`.  Returns
the stages performed in order, and the exit outcome. -/
def mainRun (inp : MainInput) : List Event × ExitOutcome :=
  if inp.argSizeOk = false then ([], ExitOutcome.exit 1)
  else if inp.compileErrors.isEmpty = false then ([Event.compile], ExitOutcome.exit 1)
  else if inp.hasDataPath then
    match JsonStateMap.LoadFromFile ⟨[]⟩ inp.parse inp.stateFile with
    | Except.error e => ([Event.compile, Event.loadState], ExitOutcome.abort e)
    | Except.ok _ =>
      ([Event.compile, Event.loadState, Event.execute, Event.saveState],
        ExitOutcome.exit (if inp.execSuccess then 0 else 1))
  else
    ([Event.compile, Event.execute], ExitOutcome.exit (if inp.execSuccess then 0 else 1))

/-- A concrete `main` input whose state file is present, non-empty and
parses to a list-rooted (non-object) document. -/
def malformedRootInput : MainInput :=
  ⟨true, [], true, some ['['], fun _ => JValue.array [], true⟩

/-- A concrete one-entry store document: key "k", hex text "61". -/
def doc5 : List (String × JValue) :=
  [("k", JValue.str ['6', '1'])]

/-- A concrete (trivial) JSON serializer used to instantiate the
round-trip theorem. -/
def serialize5 : JValue → List Char :=
  fun _ => ['o']

/-- A concrete JSON parser that inverts `serialize5` on the document
`doc5`. -/
def parse5 : List Char → JValue :=
  fun _ => JValue.object doc5

set_option maxRecDepth 4096 in
/-- Decoding the two hex digits of a byte, as emitted by the encoder,
recovers the byte. -/
theorem hexPair : ∀ b : Fin 256,
    (hexVal (hexDigit (b.val / 16)) * 16 + hexVal (hexDigit (b.val % 16))) % 256 = b.val := by
  decide

/-- The hex codec round-trips every byte sequence. -/
theorem FromHex_ToHex (B : List Byte) : FromHex (ToHex B) = B := by
  induction B with
  | nil => rfl
  | cons b rest ih =>
    simp only [ToHex, FromHex, ih]
    exact congrArg (fun x => x :: rest) (Fin.ext (hexPair b))

/-- Looking up the key just set finds the value just stored. -/
theorem lookupStr_setKey {α : Type} (l : List (String × α)) (key : String) (v : α) :
    lookupStr (setKey l key v) key = some v := by
  induction l with
  | nil => simp [setKey, lookupStr]
  | cons kv rest ih =>
    by_cases h : kv.1 = key
    · simp [setKey, h, lookupStr]
    · simp [setKey, h, lookupStr, ih]

/-- Loading a present, non-empty file whose root is not an object throws
`"JSON state file is not correct"`. -/
theorem LoadFromFile_not_object (m : JsonStateMap) (parse : List Char → JValue)
    (c : List Char) (h1 : c ≠ []) (h2 : (parse c).IsObject = false) :
    JsonStateMap.LoadFromFile m parse (some c)
      = Except.error "JSON state file is not correct" := by
  have he : c.isEmpty = false := by
    cases c with
    | nil => exact absurd rfl h1
    | cons a t => rfl
  unfold JsonStateMap.LoadFromFile ReadFileContents
  simp only [he, Bool.false_eq_true, if_false]
  cases hp : parse c with
  | object kvs => rw [hp] at h2; exact absurd h2 (by simp [JValue.IsObject])
  | array l => rfl
  | str s => rfl
  | num n => rfl
  | boolean b => rfl
  | null => rfl

/-- Loading a present, non-empty file whose root is an object replaces the
store's document with the parsed object. -/
theorem LoadFromFile_object (m : JsonStateMap) (parse : List Char → JValue)
    (c : List Char) (h1 : c ≠ []) (kvs : List (String × JValue))
    (hp : parse c = JValue.object kvs) :
    JsonStateMap.LoadFromFile m parse (some c) = Except.ok ⟨kvs⟩ := by
  have he : c.isEmpty = false := by
    cases c with
    | nil => exact absurd rfl h1
    | cons a t => rfl
  unfold JsonStateMap.LoadFromFile ReadFileContents
  simp only [he, Bool.false_eq_true, if_false, hp]

/-- After the first separator has been seen, the loop sends every later
argument to the script list, dropping further separator tokens. -/
theorem parseLoop_true (l : List String) :
    parseLoop l true = ([], l.filter (fun a => !(a == "--"))) := by
  induction l with
  | nil => rfl
  | cons a rest ih =>
    by_cases h : a = "--"
    · subst h
      simp [parseLoop, ih, List.filter_cons]
    · simp [parseLoop, h, ih, List.filter_cons]

/-- Closed form of the argument-splitting loop: program arguments are
those before the first separator, script arguments those after it with
separator tokens dropped. -/
theorem parseLoop_false (l : List String) :
    parseLoop l false =
      (l.takeWhile (fun a => !(a == "--")),
       ((l.dropWhile (fun a => !(a == "--"))).drop 1).filter (fun a => !(a == "--"))) := by
  induction l with
  | nil => rfl
  | cons a rest ih =>
    by_cases h : a = "--"
    · subst h
      simp [parseLoop, parseLoop_true, List.takeWhile_cons, List.dropWhile_cons]
    · simp [parseLoop, h, ih, List.takeWhile_cons, List.dropWhile_cons]

/-- The `int32` narrowing cast is the identity below 2^31. -/
theorem int32cast_small (n : Nat) (h : n < 2 ^ 31) : int32cast n = (n : Int) := by
  have h32 : n < 2 ^ 32 := lt_trans h (by norm_num)
  unfold int32cast
  rw [Nat.mod_eq_of_lt h32, if_pos h]

/-- Claim C1: for every key K and byte sequence B, `Write(K, B)` followed
by `Read(K, capacity)` with capacity at least the length of B returns
status OK, reports the actual size through the in/out size parameter, and
copies exactly the bytes B into the caller's buffer — the bytes round-trip
byte-exactly through the hex encoding. -/
theorem C1_write_read (m : JsonStateMap) (key : String) (B buf : List Byte) (cap : Nat)
    (h : B.length ≤ cap) :
    JsonStateMap.Read (JsonStateMap.Write m key B B.length).2 key buf cap
      = (Except.ok (Status.OK, B.length, B ++ buf.drop B.length),
         (JsonStateMap.Write m key B B.length).2) := by
  simp only [JsonStateMap.Write, JsonStateMap.Read, List.take_length, lookupStr_setKey,
    JValue.AsConstByteArray, FromHex_ToHex, memcpy, if_pos h]

/-- Witness for C1 at a concrete input: key "k", bytes [0xDE, 0xAD],
buffer of four zero bytes, capacity 4. -/
theorem C1_write_read_witness :
    ([(222 : Byte), (173 : Byte)] : List Byte).length ≤ 4 ∧
    JsonStateMap.Read
        (JsonStateMap.Write ⟨[]⟩ "k" [(222 : Byte), (173 : Byte)]
          ([(222 : Byte), (173 : Byte)] : List Byte).length).2 "k"
        [(0 : Byte), (0 : Byte), (0 : Byte), (0 : Byte)] 4
      = (Except.ok (Status.OK, ([(222 : Byte), (173 : Byte)] : List Byte).length,
          [(222 : Byte), (173 : Byte)]
            ++ ([(0 : Byte), (0 : Byte), (0 : Byte), (0 : Byte)] : List Byte).drop
              ([(222 : Byte), (173 : Byte)] : List Byte).length),
         (JsonStateMap.Write ⟨[]⟩ "k" [(222 : Byte), (173 : Byte)]
           ([(222 : Byte), (173 : Byte)] : List Byte).length).2) :=
  ⟨by decide, C1_write_read ⟨[]⟩ "k" [(222 : Byte), (173 : Byte)]
    [(0 : Byte), (0 : Byte), (0 : Byte), (0 : Byte)] 4 (by decide)⟩

/-- Counterexample to claim C2 as stated: for the empty byte sequence,
`Write(K, [])` followed by `Read(K, 0)` returns OK (capacity 0 is not
smaller than actual size 0), not BUFFER_TOO_SMALL. -/
theorem C2_counterexample :
    ((JsonStateMap.Write ⟨[]⟩ "k" ([] : List Byte) 0).2.Read "k" [] 0).1
      = Except.ok (Status.OK, 0, ([] : List Byte)) ∧ Status.OK ≠ Status.BUFFER_TOO_SMALL := by
  constructor
  · rfl
  · decide

/-- Claim C2 (amended to nonempty B): for every key K and every nonempty
byte sequence B, `Write(K, B)` followed by `Read(K, 0)` returns status
BUFFER_TOO_SMALL, reports the stored size through the in/out size
parameter, and leaves the caller's buffer untouched. -/
theorem C2_zero_capacity (m : JsonStateMap) (key : String) (B buf : List Byte)
    (h : B ≠ []) :
    JsonStateMap.Read (JsonStateMap.Write m key B B.length).2 key buf 0
      = (Except.ok (Status.BUFFER_TOO_SMALL, B.length, buf),
         (JsonStateMap.Write m key B B.length).2) := by
  have hlen : ¬ (B.length ≤ 0) := by
    cases B with
    | nil => exact absurd rfl h
    | cons a t => simp
  simp only [JsonStateMap.Write, JsonStateMap.Read, List.take_length, lookupStr_setKey,
    JValue.AsConstByteArray, FromHex_ToHex, if_neg hlen]

/-- Witness for the amended C2 at a concrete input: key "k", bytes [0x01],
empty caller buffer, capacity 0. -/
theorem C2_zero_capacity_witness :
    ([(1 : Byte)] : List Byte) ≠ [] ∧
    JsonStateMap.Read
        (JsonStateMap.Write ⟨[]⟩ "k" [(1 : Byte)] ([(1 : Byte)] : List Byte).length).2
        "k" [] 0
      = (Except.ok (Status.BUFFER_TOO_SMALL, ([(1 : Byte)] : List Byte).length,
          ([] : List Byte)),
         (JsonStateMap.Write ⟨[]⟩ "k" [(1 : Byte)] ([(1 : Byte)] : List Byte).length).2) :=
  ⟨by decide, C2_zero_capacity ⟨[]⟩ "k" [(1 : Byte)] [] (by decide)⟩

/-- Claim C3: reading an absent key returns status ERROR and leaves both
the in/out size parameter and the caller's buffer untouched. -/
theorem C3_read_absent (m : JsonStateMap) (key : String) (buf : List Byte) (cap : Nat)
    (h : JsonStateMap.Has m key = false) :
    JsonStateMap.Read m key buf cap = (Except.ok (Status.ERROR, cap, buf), m) := by
  cases hl : lookupStr m.data_ key with
  | none => simp [JsonStateMap.Read, hl]
  | some v => exact absurd h (by simp [JsonStateMap.Has, hl])

/-- Witness for C3 at a concrete input: the empty store, key "k",
capacity 7. -/
theorem C3_read_absent_witness :
    JsonStateMap.Has ⟨[]⟩ "k" = false ∧
    JsonStateMap.Read ⟨[]⟩ "k" [] 7
      = (Except.ok (Status.ERROR, 7, ([] : List Byte)), (⟨[]⟩ : JsonStateMap)) :=
  ⟨rfl, C3_read_absent ⟨[]⟩ "k" [] 7 rfl⟩

/-- Claim C4: loading an absent or empty file leaves the store unchanged
(in particular a fresh store stays in its empty initial state) and is not
an error; loading a present, non-empty file whose parsed root is not an
object raises the fatal load error. -/
theorem C4_load (m : JsonStateMap) (parse : List Char → JValue) :
    JsonStateMap.LoadFromFile m parse none = Except.ok m ∧
    JsonStateMap.LoadFromFile m parse (some []) = Except.ok m ∧
    ∀ c : List Char, c ≠ [] → (parse c).IsObject = false →
      JsonStateMap.LoadFromFile m parse (some c)
        = Except.error "JSON state file is not correct" := by
  refine ⟨rfl, rfl, ?_⟩
  intro c h1 h2
  exact LoadFromFile_not_object m parse c h1 h2

/-- Witness for C4 at a concrete input: a parser that yields a list root
on the non-empty contents "[". -/
theorem C4_load_witness :
    (['['] : List Char) ≠ [] ∧
    ((fun _ : List Char => JValue.array []) ['[']).IsObject = false ∧
    JsonStateMap.LoadFromFile ⟨[]⟩ (fun _ => JValue.array []) (some ['['])
      = Except.error "JSON state file is not correct" :=
  ⟨by decide, rfl, (C4_load ⟨[]⟩ (fun _ => JValue.array [])).2.2 ['['] (by decide) rfl⟩

/-- Claim C5: `SaveToFile` followed by a fresh store's `LoadFromFile`
reproduces the whole key/value document (hence every pair byte-for-byte),
and the hex encode/decode step at rest is invertible. -/
theorem C5_save_load_roundtrip (m : JsonStateMap) (serialize : JValue → List Char)
    (parse : List Char → JValue)
    (h1 : serialize (JValue.object m.data_) ≠ [])
    (h2 : parse (serialize (JValue.object m.data_)) = JValue.object m.data_) :
    JsonStateMap.LoadFromFile ⟨[]⟩ parse (some (JsonStateMap.SaveToFile serialize m))
        = Except.ok m ∧
    ∀ B : List Byte, FromHex (ToHex B) = B := by
  refine ⟨?_, FromHex_ToHex⟩
  exact LoadFromFile_object ⟨[]⟩ parse _ h1 m.data_ h2

/-- Witness for C5 at a concrete input: the one-entry document `doc5` with
the concrete serializer/parser pair. -/
theorem C5_save_load_roundtrip_witness :
    serialize5 (JValue.object (JsonStateMap.mk doc5).data_) ≠ [] ∧
    parse5 (serialize5 (JValue.object (JsonStateMap.mk doc5).data_))
      = JValue.object (JsonStateMap.mk doc5).data_ ∧
    (JsonStateMap.LoadFromFile ⟨[]⟩ parse5
        (some (JsonStateMap.SaveToFile serialize5 ⟨doc5⟩)) = Except.ok (JsonStateMap.mk doc5) ∧
      ∀ B : List Byte, FromHex (ToHex B) = B) :=
  ⟨by decide, rfl, C5_save_load_roundtrip ⟨doc5⟩ serialize5 parse5 (by decide) rfl⟩

/-- Counterexample to claim C6 as stated: on a run whose state file parses
to a list root, the load does abort the run with the malformed-state
error, but compilation has already been performed before the load — the
run does not abort before compilation. -/
theorem C6_counterexample :
    (mainRun malformedRootInput).2 = ExitOutcome.abort "JSON state file is not correct" ∧
      Event.compile ∈ (mainRun malformedRootInput).1 := by
  constructor
  · rfl
  · decide

/-- Claim C6 (amended): when the state file's root is a list, the load
reports the malformed-state error and the host run aborts before the
entry function is executed and before any state save; compilation,
however, has already been performed, because `main` compiles the script
before loading the state file. -/
theorem C6_abort_before_execute (inp : MainInput) (h1 : inp.argSizeOk = true)
    (h2 : inp.compileErrors = []) (h3 : inp.hasDataPath = true)
    (c : List Char) (h4 : inp.stateFile = some c) (h5 : c ≠ [])
    (h6 : (inp.parse c).IsObject = false) :
    (mainRun inp).2 = ExitOutcome.abort "JSON state file is not correct" ∧
      Event.execute ∉ (mainRun inp).1 ∧ Event.saveState ∉ (mainRun inp).1 := by
  have hload := LoadFromFile_not_object ⟨[]⟩ inp.parse c h5 h6
  unfold mainRun
  rw [h4] at *
  simp [h1, h2, h3, hload]

/-- Witness for the amended C6 at the concrete input
`malformedRootInput`. -/
theorem C6_abort_before_execute_witness :
    (malformedRootInput.argSizeOk = true ∧
     malformedRootInput.compileErrors = [] ∧
     malformedRootInput.hasDataPath = true ∧
     malformedRootInput.stateFile = some ['['] ∧
     (['['] : List Char) ≠ [] ∧
     (malformedRootInput.parse ['[']).IsObject = false) ∧
    ((mainRun malformedRootInput).2 = ExitOutcome.abort "JSON state file is not correct" ∧
      Event.execute ∉ (mainRun malformedRootInput).1 ∧
      Event.saveState ∉ (mainRun malformedRootInput).1) :=
  ⟨⟨rfl, rfl, rfl, rfl, by decide, rfl⟩,
    C6_abort_before_execute malformedRootInput rfl rfl rfl ['['] rfl (by decide) rfl⟩

/-- Claim C7: executing `main` of a compiled unit equivalent to
`function main(): Int32 return System.Argc(); end` with script arguments
["a", "b"] bound yields output 2 and success, i.e. the `Argc` binding
returns the number of script-side arguments available. -/
theorem C7_argc_scenario (prog_args : List String) :
    Execute ⟨prog_args, ["a", "b"]⟩ argcMainScript "main"
      = ⟨true, "", "", OutputValue.i32 2⟩ := by
  rfl

/-- Claim C8: the process exit outcome is zero exactly when compilation
produced no diagnostics and the named entry function was executed and
completed without fault; diagnostics, a missing function, or a fault (both
surfaced as an unsuccessful `Execute`) give a non-zero outcome. -/
theorem C8_exit_zero_iff (inp : MainInput) :
    (mainRun inp).2 = ExitOutcome.exit 0 ↔
      (inp.compileErrors = [] ∧ Event.execute ∈ (mainRun inp).1 ∧ inp.execSuccess = true) := by
  unfold mainRun
  cases h1 : inp.argSizeOk with
  | false => simp [h1]
  | true =>
    cases h2 : inp.compileErrors with
    | cons a t => simp [h1, h2]
    | nil =>
      cases h3 : inp.hasDataPath with
      | false =>
        cases h4 : inp.execSuccess with
        | true => simp [h1, h2, h3, h4]
        | false => simp [h1, h2, h3, h4]
      | true =>
        cases hload : JsonStateMap.LoadFromFile ⟨[]⟩ inp.parse inp.stateFile with
        | error e => simp [h1, h2, h3, hload]
        | ok st =>
          cases h4 : inp.execSuccess with
          | true => simp [h1, h2, h3, h4, hload]
          | false => simp [h1, h2, h3, h4, hload]

/-- Claim C9: `Read` and `Exists` never modify the state store's document;
it is identical before and after either call, whatever the key, buffer and
capacity. -/
theorem C9_read_exists_frame (m : JsonStateMap) (key : String) (buf : List Byte) (cap : Nat) :
    (JsonStateMap.Read m key buf cap).2 = m ∧ (JsonStateMap.Exists m key).2 = m := by
  refine ⟨?_, rfl⟩
  unfold JsonStateMap.Read
  split
  · rfl
  · split
    · rfl
    · dsimp only
      split <;> rfl

/-- Claim C10: `Parameters::Parse` places `argv[0]` as element 0 of the
script argument list, ahead of the arguments following the first `"--"`
separator with every separator token dropped, so `Argc` returns one plus
the number of remaining arguments after the separator and `Argv(0)`
returns the program name. -/
theorem C10_script_args (argv0 : String) (args : List String)
    (h : (Parameters.Parse argv0 args).script.length < 2 ^ 31) :
    (Parameters.Parse argv0 args).script
        = argv0 ::
          ((args.dropWhile (fun a => !(a == "--"))).drop 1).filter (fun a => !(a == "--")) ∧
      Argc (Parameters.Parse argv0 args)
        = 1 + ((((args.dropWhile (fun a => !(a == "--"))).drop 1).filter
            (fun a => !(a == "--"))).length : Int) ∧
      Argv (Parameters.Parse argv0 args) 0 = Except.ok argv0 := by
  have hs : (Parameters.Parse argv0 args).script
      = argv0 ::
        ((args.dropWhile (fun a => !(a == "--"))).drop 1).filter (fun a => !(a == "--")) := by
    unfold Parameters.Parse Parameters.script
    rw [parseLoop_false]
  refine ⟨hs, ?_, ?_⟩
  · unfold Argc
    rw [int32cast_small _ h, hs]
    simp [List.length_cons]
    ring
  · unfold Argv
    rw [hs]
    rfl

/-- Witness for C10 at a concrete command line:
`vm-lang s.etch -- x y`. -/
theorem C10_script_args_witness :
    (Parameters.Parse "vm-lang" ["s.etch", "--", "x", "y"]).script.length < 2 ^ 31 ∧
    ((Parameters.Parse "vm-lang" ["s.etch", "--", "x", "y"]).script
        = "vm-lang" ::
          (((["s.etch", "--", "x", "y"] : List String).dropWhile
              (fun a => !(a == "--"))).drop 1).filter (fun a => !(a == "--")) ∧
      Argc (Parameters.Parse "vm-lang" ["s.etch", "--", "x", "y"])
        = 1 + ((((((["s.etch", "--", "x", "y"] : List String).dropWhile
            (fun a => !(a == "--"))).drop 1).filter (fun a => !(a == "--"))).length : Nat) : Int) ∧
      Argv (Parameters.Parse "vm-lang" ["s.etch", "--", "x", "y"]) 0 = Except.ok "vm-lang") :=
  ⟨by decide, C10_script_args "vm-lang" ["s.etch", "--", "x", "y"] (by decide)⟩
